import Mathlib

/-!
Verification development for the CSG (constructive solid geometry) module.

The repository ships two source files: the module's export index
(src/unnamed/part_000) and the 3-D curve animation canvas
(src/src/tabs/Curve/animation_canvas_3d_curve.tsx).  The geometry kernel
itself (functions/core) is not part of the given sources, so its data model
and operations are modelled from the specification (spec.md); every such
definition carries a doc comment starting with "Modelled from the spec:".
The animation canvas is embedded directly from the TypeScript source.

All geometric quantities are over the rationals, mirroring the exact
arithmetic of the analytic vertex lists; surface area, which needs a square
root, is valued in the reals.
-/

namespace CSG

/-- Modelled from the spec: Vector3, a 3-component vector value type (§3). -/
@[ext]
structure Vec3 where
  x : ℚ
  y : ℚ
  z : ℚ
deriving DecidableEq, Repr

/-- Modelled from the spec: componentwise vector addition. -/
def Vec3.add (a b : Vec3) : Vec3 := ⟨a.x + b.x, a.y + b.y, a.z + b.z⟩

/-- Modelled from the spec: componentwise vector subtraction. -/
def Vec3.sub (a b : Vec3) : Vec3 := ⟨a.x - b.x, a.y - b.y, a.z - b.z⟩

/-- Modelled from the spec: scalar multiplication of a vector. -/
def Vec3.smul (c : ℚ) (a : Vec3) : Vec3 := ⟨c * a.x, c * a.y, c * a.z⟩

/-- Modelled from the spec: the zero vector. -/
def Vec3.zero : Vec3 := ⟨0, 0, 0⟩

/-- Modelled from the spec: the dot product. -/
def Vec3.dot (a b : Vec3) : ℚ := a.x * b.x + a.y * b.y + a.z * b.z

/-- Modelled from the spec: the cross product. -/
def Vec3.cross (a b : Vec3) : Vec3 :=
  ⟨a.y * b.z - a.z * b.y, a.z * b.x - a.x * b.z, a.x * b.y - a.y * b.x⟩

instance : Add Vec3 := ⟨Vec3.add⟩
instance : Sub Vec3 := ⟨Vec3.sub⟩
instance : Zero Vec3 := ⟨Vec3.zero⟩

/-- Modelled from the spec: a triangle of the triangulated mesh (§3). -/
@[ext]
structure Tri where
  a : Vec3
  b : Vec3
  c : Vec3
deriving DecidableEq, Repr

/-- Modelled from the spec: a Mesh is, post-triangulation, a set of
triangles representing a solid boundary (§3). -/
abbrev Mesh : Type := List Tri

/-- Sum of a list of vectors. -/
def vsum (l : List Vec3) : Vec3 := l.foldr Vec3.add Vec3.zero

/-- Modelled from the spec: the signed-tetrahedron determinant of a
triangle with the origin, 6 times the signed tetrahedron volume (§4.5). -/
def det3 (t : Tri) : ℚ := Vec3.dot t.a (Vec3.cross t.b t.c)

/-- Twice the vector area of a triangle, written edge by edge. -/
def eVec (t : Tri) : Vec3 :=
  Vec3.cross t.a t.b + Vec3.cross t.b t.c + Vec3.cross t.c t.a

/-- Sum of the three vertices of a triangle. -/
def sVec (t : Tri) : Vec3 := t.a + t.b + t.c

/-- Sum of the signed-tetrahedron determinants over a mesh. -/
def sumDet (m : Mesh) : ℚ := (List.map det3 m).sum

/-- Modelled from the spec: volume as the sum of signed tetrahedron volumes
formed by each triangle and the origin, V = (1/6) Σ v0·(v1×v2) (§4.5). -/
def meshVolume (m : Mesh) : ℚ := sumDet m / 6

/-- Modelled from the spec: the first-moment sum of the tetrahedron
decomposition; each tetrahedron contributes its volume times its centroid
(v0+v1+v2+0)/4, so the total moment is (1/24) Σ det·(v0+v1+v2) (§4.5). -/
def momentSum (m : Mesh) : Vec3 :=
  vsum (List.map (fun t => Vec3.smul (det3 t) (sVec t)) m)

/-- Modelled from the spec: the volume-weighted centroid, the first-moment
sum divided by the total volume (§4.5). -/
def meshCentroid (m : Mesh) : Vec3 :=
  Vec3.smul (1 / (24 * meshVolume m)) (momentSum m)

/-- Modelled from the spec: area of one triangle, ½‖(v1−v0)×(v2−v0)‖ (§4.5). -/
noncomputable def triArea (t : Tri) : ℝ :=
  Real.sqrt ((Vec3.dot (Vec3.cross (t.b - t.a) (t.c - t.a))
    (Vec3.cross (t.b - t.a) (t.c - t.a)) : ℚ)) / 2

/-- Modelled from the spec: surface area as the sum of triangle areas (§4.5). -/
noncomputable def meshArea (m : Mesh) : ℝ := (List.map triArea m).sum

/-- Two triangles covering a quadrilateral face given in cyclic order. -/
def quad (a b c d : Vec3) : List Tri := [⟨a, b, c⟩, ⟨a, c, d⟩]

/-- Modelled from the spec: the cube primitive, built from its exact
analytic vertex list, centered at the origin; 6 quads split into 12
triangles, wound outward (§4.1). -/
def cubeMesh (s : ℚ) : Mesh :=
  let h := s / 2
  quad ⟨-h, -h, h⟩ ⟨h, -h, h⟩ ⟨h, h, h⟩ ⟨-h, h, h⟩ ++       -- top    (+z)
  quad ⟨-h, -h, -h⟩ ⟨-h, h, -h⟩ ⟨h, h, -h⟩ ⟨h, -h, -h⟩ ++   -- bottom (−z)
  quad ⟨h, -h, -h⟩ ⟨h, h, -h⟩ ⟨h, h, h⟩ ⟨h, -h, h⟩ ++       -- right  (+x)
  quad ⟨-h, -h, -h⟩ ⟨-h, -h, h⟩ ⟨-h, h, h⟩ ⟨-h, h, -h⟩ ++   -- left   (−x)
  quad ⟨-h, h, -h⟩ ⟨-h, h, h⟩ ⟨h, h, h⟩ ⟨h, h, -h⟩ ++       -- back   (+y)
  quad ⟨-h, -h, -h⟩ ⟨h, -h, -h⟩ ⟨h, -h, h⟩ ⟨-h, -h, h⟩      -- front  (−y)

/-- A reference tetrahedron mesh with outward winding, used as a concrete
closed mesh in witnesses. -/
def tetMesh : Mesh :=
  [⟨⟨0, 0, 0⟩, ⟨0, 1, 0⟩, ⟨1, 0, 0⟩⟩,
   ⟨⟨0, 0, 0⟩, ⟨1, 0, 0⟩, ⟨0, 0, 1⟩⟩,
   ⟨⟨0, 0, 0⟩, ⟨0, 0, 1⟩, ⟨0, 1, 0⟩⟩,
   ⟨⟨1, 0, 0⟩, ⟨0, 1, 0⟩, ⟨0, 0, 1⟩⟩]

/-- Modelled from the spec: Matrix4, a 4×4 homogeneous affine matrix (§3),
recorded by its twelve affine entries (3×3 linear part plus translation
column; the remaining homogeneous row is fixed at 0 0 0 1). -/
@[ext]
structure Mat4 where
  m00 : ℚ
  m01 : ℚ
  m02 : ℚ
  m03 : ℚ
  m10 : ℚ
  m11 : ℚ
  m12 : ℚ
  m13 : ℚ
  m20 : ℚ
  m21 : ℚ
  m22 : ℚ
  m23 : ℚ
deriving DecidableEq, Repr

/-- Modelled from the spec: applying an affine matrix to a point. -/
def applyAff (M : Mat4) (v : Vec3) : Vec3 :=
  ⟨M.m00 * v.x + M.m01 * v.y + M.m02 * v.z + M.m03,
   M.m10 * v.x + M.m11 * v.y + M.m12 * v.z + M.m13,
   M.m20 * v.x + M.m21 * v.y + M.m22 * v.z + M.m23⟩

/-- Modelled from the spec: a pure-translation matrix. -/
def translationMat (v : Vec3) : Mat4 :=
  ⟨1, 0, 0, v.x, 0, 1, 0, v.y, 0, 0, 1, v.z⟩

/-- Modelled from the spec: a diagonal scaling matrix. -/
def scaleMat (v : Vec3) : Mat4 :=
  ⟨v.x, 0, 0, 0, 0, v.y, 0, 0, 0, 0, v.z, 0⟩

/-- Modelled from the spec: applying an affine matrix to every vertex of a
triangle. -/
def applyTri (M : Mat4) (t : Tri) : Tri :=
  ⟨applyAff M t.a, applyAff M t.b, applyAff M t.c⟩

/-- Modelled from the spec: applying an affine matrix to every vertex of a
mesh (§4.4). -/
def applyMesh (M : Mat4) (m : Mesh) : Mesh := List.map (applyTri M) m

/-- Translating every vertex of a triangle by a fixed vector. -/
def translateTri (v : Vec3) (t : Tri) : Tri := ⟨t.a + v, t.b + v, t.c + v⟩

/-- Translating every vertex of a mesh by a fixed vector. -/
def translateMesh (v : Vec3) (m : Mesh) : Mesh := List.map (translateTri v) m

/-- Modelled from the spec: the boolean operators of the Boolean Engine (§3). -/
inductive BoolOp where
  | union
  | intersect
  | subtract
deriving DecidableEq, Repr

/-- Modelled from the spec: the error kinds of §7. -/
inductive GeometryError where
  | invalidParameter
  | degenerateMesh
  | nonManifoldResult
  | typeMismatch
deriving DecidableEq, Repr

/-- Modelled from the spec: ShapeNode, the tagged variant of the Shape Tree
(§3): a primitive (recorded by its generated local-space mesh), a
transformed child, a boolean combination, or a group of children. -/
inductive ShapeNode where
  | prim (m : Mesh)
  | transformed (child : ShapeNode) (mat : Mat4)
  | boolean (op : BoolOp) (left right : ShapeNode)
  | group (children : List ShapeNode)

mutual

/-- Modelled from the spec: deep copy of a shape tree — each combinator
call deep-copies its operands into the new node (§3). -/
def deepCopy : ShapeNode → ShapeNode
  | .prim m => .prim m
  | .transformed child M => .transformed (deepCopy child) M
  | .boolean op l r => .boolean op (deepCopy l) (deepCopy r)
  | .group cs => .group (deepCopyList cs)

/-- Deep copy of a list of child shape trees. -/
def deepCopyList : List ShapeNode → List ShapeNode
  | [] => []
  | c :: cs => deepCopy c :: deepCopyList cs

end

mutual

/-- Modelled from the spec: materialize (§4.4), depth-first — primitives
yield their mesh; a Transformed node materializes its child then applies
the matrix to every vertex; a Boolean node materializes both children and
hands them to the Boolean Engine; a Group materializes and unions all
children.  The Boolean Engine (§4.3, BSP polygon clipping) is absent from
the given sources and none of the claims below depend on its output, so it
is taken as an explicit parameter rather than fixed. -/
def materialize (combine : BoolOp → Mesh → Mesh → Mesh) : ShapeNode → Mesh
  | .prim m => m
  | .transformed child M => applyMesh M (materialize combine child)
  | .boolean op l r =>
      combine op (materialize combine l) (materialize combine r)
  | .group cs => materializeGroup combine cs

/-- Modelled from the spec: a Group materializes all children and combines
them as if by repeated union (§4.4). -/
def materializeGroup (combine : BoolOp → Mesh → Mesh → Mesh) :
    List ShapeNode → Mesh
  | [] => []
  | [c] => materialize combine c
  | c :: cs =>
      combine .union (materialize combine c) (materializeGroup combine cs)

end

/-- Modelled from the spec: shape_center, the volume-weighted centroid of
the materialized mesh (§4.5, §6). -/
def shape_center (combine : BoolOp → Mesh → Mesh → Mesh)
    (n : ShapeNode) : Vec3 :=
  meshCentroid (materialize combine n)

/-- Modelled from the spec: shape_set_center / recenter — computes the
current centroid and wraps the node in a Transformed node with a
pure-translation matrix moving the centroid to the target; the original
node is untouched (§4.5). -/
def shape_set_center (combine : BoolOp → Mesh → Mesh → Mesh)
    (n : ShapeNode) (target : Vec3) : ShapeNode :=
  .transformed n (translationMat (target - shape_center combine n))

/-- Modelled from the spec: the store of live shape nodes; a ShapeHandle is
an opaque reference to a node, modelled as an index into the store (§3). -/
abbrev Store : Type := List ShapeNode

/-- Default node handed back for an out-of-range handle lookup. -/
def dfltNode : ShapeNode := .prim []

/-- Look up the node a handle refers to. -/
def Store.node (st : Store) (h : Nat) : ShapeNode := List.getD st h dfltNode

/-- Append a freshly built node to the store, returning the new store and
the new node's handle. -/
def Store.push (st : Store) (n : ShapeNode) : Store × Nat :=
  (st ++ [n], List.length st)

/-- Modelled from the spec: translate(handle, vector) — wraps a deep copy
of the operand in a Transformed node with a translation matrix (§4.2, §6). -/
def translate (st : Store) (h : Nat) (v : Vec3) : Store × Nat :=
  Store.push st (.transformed (deepCopy (Store.node st h)) (translationMat v))

/-- Modelled from the spec: rotate(handle, axis, angle) — wraps a deep copy
of the operand in a Transformed node with the rotation matrix for the given
axis and angle.  The rotation matrix has trigonometric (irrational)
entries, so the matrix-building function is a parameter; no claim inspects
its entries (§4.2, §6). -/
def rotate (rotM : Vec3 → ℚ → Mat4) (st : Store) (h : Nat)
    (axis : Vec3) (angle : ℚ) : Store × Nat :=
  Store.push st (.transformed (deepCopy (Store.node st h)) (rotM axis angle))

/-- Modelled from the spec: scale(handle, vector) — wraps a deep copy of
the operand in a Transformed node with a scaling matrix (§4.2, §6). -/
def scale (st : Store) (h : Nat) (v : Vec3) : Store × Nat :=
  Store.push st (.transformed (deepCopy (Store.node st h)) (scaleMat v))

/-- Modelled from the spec: union(handle, handle) — builds a Boolean node
from deep copies of the operands (§3, §6). -/
def union (st : Store) (h1 h2 : Nat) : Store × Nat :=
  Store.push st
    (.boolean .union (deepCopy (Store.node st h1)) (deepCopy (Store.node st h2)))

/-- Modelled from the spec: intersect(handle, handle) — builds a Boolean
node from deep copies of the operands (§3, §6). -/
def intersect (st : Store) (h1 h2 : Nat) : Store × Nat :=
  Store.push st
    (.boolean .intersect (deepCopy (Store.node st h1)) (deepCopy (Store.node st h2)))

/-- Modelled from the spec: subtract(handle, handle) — builds a Boolean
node from deep copies of the operands (§3, §6). -/
def subtract (st : Store) (h1 h2 : Nat) : Store × Nat :=
  Store.push st
    (.boolean .subtract (deepCopy (Store.node st h1)) (deepCopy (Store.node st h2)))

/-- Modelled from the spec: group(handle, …) — builds a Group node from
deep copies of the operands (§3, §6). -/
def group (st : Store) (hs : List Nat) : Store × Nat :=
  Store.push st (.group (List.map (fun h => deepCopy (Store.node st h)) hs))

/-- Modelled from the spec: the validity domain of the rounded_cube
parameters — positive edge lengths, a nonnegative corner radius no more
than half the smallest edge length (§4.1, §7). -/
def roundedCubeOk (sx sy sz r : ℚ) : Prop :=
  0 < sx ∧ 0 < sy ∧ 0 < sz ∧ 0 ≤ r ∧ 2 * r ≤ min sx (min sy sz)

instance (sx sy sz r : ℚ) : Decidable (roundedCubeOk sx sy sz r) := by
  unfold roundedCubeOk; infer_instance

/-- Modelled from the spec: rounded_cube — validates its numeric
parameters, failing with InvalidParameter when the corner radius exceeds
half the smallest edge length or a dimension is out of its domain;
otherwise returns the primitive shape.  The tessellation of the rounded
solid (swept quarter-cylinder and sphere-octant patches, §4.1) is not
described precisely enough to reproduce, so the mesh generator is a
parameter; the claims below concern only the error behaviour. -/
def rounded_cube (gen : ℚ → ℚ → ℚ → ℚ → Mesh) (sx sy sz r : ℚ) :
    Except GeometryError ShapeNode :=
  if roundedCubeOk sx sy sz r then .ok (.prim (gen sx sy sz r))
  else .error .invalidParameter

/-- Modelled from the spec: the validity domain of the rounded_cylinder
parameters — positive radius and height, a nonnegative corner radius no
more than half the smallest relevant edge length (the diameter and the
height) (§4.1, §7). -/
def roundedCylinderOk (radius height r : ℚ) : Prop :=
  0 < radius ∧ 0 < height ∧ 0 ≤ r ∧ 2 * r ≤ min (2 * radius) height

instance (radius height r : ℚ) : Decidable (roundedCylinderOk radius height r) := by
  unfold roundedCylinderOk; infer_instance

/-- Modelled from the spec: rounded_cylinder — validates its numeric
parameters, failing with InvalidParameter out of domain; otherwise returns
the primitive shape.  As for rounded_cube, the mesh generator is a
parameter. -/
def rounded_cylinder (gen : ℚ → ℚ → ℚ → Mesh) (radius height r : ℚ) :
    Except GeometryError ShapeNode :=
  if roundedCylinderOk radius height r then .ok (.prim (gen radius height r))
  else .error .invalidParameter

/-- One entry of the first-moment matrix of a mesh: the sum over triangles
of one component of the vertex sum times one component of the doubled
vector area. -/
def smE (f g : Vec3 → ℚ) (m : Mesh) : ℚ :=
  (List.map (fun t => f (sVec t) * g (eVec t)) m).sum

/-- Total doubled vector area of a mesh. -/
def vArea (m : Mesh) : Vec3 := vsum (List.map eVec m)

/-- Modelled from the spec: the discrete consequences of the watertightness
invariant (§3) used by the metrics — a closed, consistently outward-wound
mesh has zero total vector area and its first-moment matrix equals the
determinant sum times the identity (the discrete divergence theorem). -/
def closedIdentities (m : Mesh) : Prop :=
  vArea m = Vec3.zero ∧
  smE Vec3.x Vec3.x m = sumDet m ∧ smE Vec3.x Vec3.y m = 0 ∧
  smE Vec3.x Vec3.z m = 0 ∧ smE Vec3.y Vec3.x m = 0 ∧
  smE Vec3.y Vec3.y m = sumDet m ∧ smE Vec3.y Vec3.z m = 0 ∧
  smE Vec3.z Vec3.x m = 0 ∧ smE Vec3.z Vec3.y m = 0 ∧
  smE Vec3.z Vec3.z m = sumDet m

instance (m : Mesh) : Decidable (closedIdentities m) := by
  unfold closedIdentities; infer_instance

/-- Modelled from the spec: a solid as the point set it occupies in 3-space
(§1 describes the boolean combinations as set operations on solids); the
volume of the set is its Lebesgue measure.  This is the idealized semantics
the Boolean Engine's mesh output approximates within tolerance. -/
abbrev Solid : Type := Set (Fin 3 → ℝ)

/-- Modelled from the spec: the volume of a solid, as Lebesgue measure. -/
noncomputable def solidVolume (s : Solid) : ENNReal := MeasureTheory.volume s

/-- Modelled from the spec: union of solids as set union (§1). -/
def solidUnion (a b : Solid) : Solid := a ∪ b

/-- Modelled from the spec: intersection of solids as set intersection (§1). -/
def solidIntersect (a b : Solid) : Solid := a ∩ b

/-- The closed unit box, a concrete solid used as a witness. -/
def unitBox : Solid := Set.Icc 0 1

end CSG

namespace CurveTab

/-- State of the AnimationCanvas3dCurve component: the React state fields
(animTimestamp, isPlaying, wasPlaying, isAutoLooping, displayAngle)
together with the mutable instance fields that the callbacks read and
write — the canvas reference (abstracted to whether it is set) and
callbackTimestamp. -/
structure CanvasState where
  animTimestamp : ℚ
  isPlaying : Bool
  wasPlaying : Bool
  isAutoLooping : Bool
  displayAngle : ℚ
  hasCanvas : Bool
  callbackTimestamp : Option ℚ
deriving DecidableEq, Repr

/-- Frame duration fixed by the constructor: 1000 / animation.fps. -/
def frameDuration (fps : ℚ) : ℚ := 1000 / fps

/-- Animation duration fixed by the constructor:
Math.round(animation.duration * 1000). -/
def animationDuration (duration : ℚ) : ℤ := round (duration * 1000)

/-- Outcome of one animationCallback invocation: the poststate, whether a
frame was drawn (drawFrame), and whether another animation frame was
requested (reqFrame). -/
structure StepOut where
  s : CanvasState
  drew : Bool
  requested : Bool
deriving DecidableEq, Repr

/-- The animationCallback of AnimationCanvas3dCurve, with the constructor
constants frameDuration and animationDuration passed explicitly.  Mirrors
the source: bail out without canvas or when not playing; the source's
`!this.callbackTimestamp` is a JavaScript falsiness test, true for null and
also for the number 0, so on a null or zero previous timestamp it records
the current time and draws; otherwise skip the frame when the elapsed time
is below the frame duration; at or past the animation duration either
restart (auto loop) or stop; otherwise draw and advance the timestamp by
the elapsed time. -/
def animationCallback (fd ad : ℚ) (st : CanvasState) (t : ℚ) : StepOut :=
  if !st.hasCanvas || !st.isPlaying then ⟨st, false, false⟩
  else
    match st.callbackTimestamp with
    | none => ⟨{ st with callbackTimestamp := some t }, true, true⟩
    | some ts =>
      if ts = 0 then ⟨{ st with callbackTimestamp := some t }, true, true⟩
      else
        let currentFrame := t - ts
        if currentFrame < fd then ⟨st, false, true⟩
        else if ad ≤ st.animTimestamp then
          if st.isAutoLooping then
            ⟨{ st with callbackTimestamp := some t, animTimestamp := 0 },
              false, true⟩
          else
            ⟨{ st with callbackTimestamp := none, isPlaying := false },
              false, false⟩
        else
          ⟨{ st with callbackTimestamp := some t,
                     animTimestamp := st.animTimestamp + currentFrame },
            true, true⟩

/-- The onTimeSliderChange handler: clears callbackTimestamp, saves
isPlaying into wasPlaying, pauses, and moves the animation timestamp to
the slider value. -/
def onTimeSliderChange (st : CanvasState) (newValue : ℚ) : CanvasState :=
  { st with callbackTimestamp := none,
            wasPlaying := st.isPlaying,
            isPlaying := false,
            animTimestamp := newValue }

/-- The onTimeSliderRelease handler: restores isPlaying from wasPlaying,
then clears callbackTimestamp when not playing (when playing it requests
an animation frame instead). -/
def onTimeSliderRelease (st : CanvasState) : CanvasState :=
  let s1 := { st with isPlaying := st.wasPlaying }
  if s1.isPlaying then s1 else { s1 with callbackTimestamp := none }

end CurveTab

namespace ModuleIndex

/-- The export list of the module index source file, in source order. -/
def moduleExports : List String :=
  ["area", "black", "blue", "cone", "crimson", "cube", "cyan", "cylinder",
   "geodesic_sphere", "gray", "green", "group", "intersect", "is_shape",
   "lime", "navy", "orange", "pink", "prism", "purple", "pyramid", "render",
   "render_axis", "render_grid", "render_grid_axis", "rose", "rotate",
   "rounded_cube", "rounded_cylinder", "scale", "shape_center",
   "shape_set_center", "silver", "sphere", "star", "store", "subtract",
   "teal", "torus", "translate", "union", "volume", "white", "yellow"]

/-- The kernel bindings the specification promises: one primitive
constructor per kind of §3, the seven combinators, and the five queries. -/
def requiredKernelExports : List String :=
  ["cube", "sphere", "cylinder", "cone", "prism", "pyramid", "torus",
   "star", "geodesic_sphere", "rounded_cube", "rounded_cylinder",
   "translate", "rotate", "scale", "union", "intersect", "subtract",
   "group", "volume", "area", "shape_center", "shape_set_center",
   "is_shape"]

end ModuleIndex

/-! ## Theorems -/

namespace CSG

@[simp]
theorem Vec3.add_x (a b : Vec3) : (a + b).x = a.x + b.x := rfl

@[simp]
theorem Vec3.add_y (a b : Vec3) : (a + b).y = a.y + b.y := rfl

@[simp]
theorem Vec3.add_z (a b : Vec3) : (a + b).z = a.z + b.z := rfl

@[simp]
theorem Vec3.sub_x (a b : Vec3) : (a - b).x = a.x - b.x := rfl

@[simp]
theorem Vec3.sub_y (a b : Vec3) : (a - b).y = a.y - b.y := rfl

@[simp]
theorem Vec3.sub_z (a b : Vec3) : (a - b).z = a.z - b.z := rfl

theorem vsum_nil : vsum [] = Vec3.zero := rfl

theorem vsum_cons (v : Vec3) (l : List Vec3) :
    vsum (v :: l) = Vec3.add v (vsum l) := rfl

mutual

theorem deepCopy_eq : ∀ n : ShapeNode, deepCopy n = n
  | .prim m => by simp [deepCopy]
  | .transformed c M => by simp [deepCopy, deepCopy_eq c]
  | .boolean op l r => by simp [deepCopy, deepCopy_eq l, deepCopy_eq r]
  | .group cs => by simp [deepCopy, deepCopyList_eq cs]

theorem deepCopyList_eq : ∀ l : List ShapeNode, deepCopyList l = l
  | [] => by simp [deepCopyList]
  | c :: cs => by simp [deepCopyList, deepCopy_eq c, deepCopyList_eq cs]

end

theorem getD_concat (l : List α) (a d : α) : (l ++ [a]).getD l.length d = a := by
  induction l with
  | nil => rfl
  | cons b l ih => simp [List.getD] at ih ⊢

theorem take_concat (l : List α) (a : α) : (l ++ [a]).take l.length = l := by
  induction l with
  | nil => rfl
  | cons b l ih => simp at ih ⊢

theorem node_push (st : Store) (n : ShapeNode) :
    Store.node (Store.push st n).1 (Store.push st n).2 = n :=
  getD_concat st n dfltNode

theorem take_push (st : Store) (n : ShapeNode) :
    List.take (List.length st) (Store.push st n).1 = st :=
  take_concat st n

end CSG

/-- C1: the module's public interface exposes a primitive constructor for
every primitive kind of §3, the seven combinators and the five queries —
each of these names is an exported binding of the module index. -/
theorem c1_required_exports_present :
    (ModuleIndex.requiredKernelExports.all
      (fun n => ModuleIndex.moduleExports.contains n)) = true := by
  decide

/-- C10: scrubbing the time slider round-trips the playing state — the
change handler saves isPlaying into wasPlaying, pauses, and moves the
timestamp to the slider value; the release handler restores isPlaying, so
change-then-release leaves isPlaying at its pre-scrub value. -/
theorem c10_slider_scrub_roundtrip (st : CurveTab.CanvasState) (v : ℚ) :
    (CurveTab.onTimeSliderChange st v).isPlaying = false ∧
    (CurveTab.onTimeSliderChange st v).wasPlaying = st.isPlaying ∧
    (CurveTab.onTimeSliderChange st v).animTimestamp = v ∧
    (CurveTab.onTimeSliderRelease (CurveTab.onTimeSliderChange st v)).isPlaying
      = st.isPlaying := by
  unfold CurveTab.onTimeSliderChange CurveTab.onTimeSliderRelease
  cases h : st.isPlaying <;> simp

/-- Counterexample for C8 as literally stated: the source's
`!this.callbackTimestamp` is a falsiness test, so at a zero previous
callbackTimestamp it takes the first-callback branch — drawing a frame,
keeping isPlaying true and recording the new timestamp — even though a
frame is due (10 ≤ 20 − 0), animTimestamp has reached the animation
duration and auto loop is off, instead of the claimed stop transition. -/
theorem c8_animation_end_transition_cex :
    (10 : ℚ) ≤ 20 - 0 ∧ (1000 : ℚ) ≤ 1000 ∧
    (⟨1000, true, false, false, 0, true, some 0⟩ :
        CurveTab.CanvasState).isAutoLooping = false ∧
    (CurveTab.animationCallback 10 1000
      ⟨1000, true, false, false, 0, true, some 0⟩ 20).drew = true ∧
    (CurveTab.animationCallback 10 1000
      ⟨1000, true, false, false, 0, true, some 0⟩ 20).s.isPlaying = true ∧
    (CurveTab.animationCallback 10 1000
      ⟨1000, true, false, false, 0, true, some 0⟩ 20).s.callbackTimestamp
      = some 20 := by
  refine ⟨by norm_num, le_refl _, rfl, ?_, ?_, ?_⟩ <;>
    simp [CurveTab.animationCallback]

/-- C8 (amended): in animationCallback, when a frame is due against a
nonzero previous callbackTimestamp (a zero timestamp is falsy in the
source and is treated as the absent first callback instead) and
animTimestamp has reached or exceeded the animation duration, exactly one
of two transitions occurs — with auto loop on, animTimestamp resets to 0
and another frame is requested; with auto loop off, isPlaying becomes
false and callbackTimestamp becomes null — and in either case no frame is
drawn in that step. -/
theorem c8_animation_end_transition (fd ad : ℚ) (st : CurveTab.CanvasState)
    (t ts : ℚ) (hcv : st.hasCanvas = true) (hpl : st.isPlaying = true)
    (hts : st.callbackTimestamp = some ts) (hts0 : ts ≠ 0)
    (hdue : fd ≤ t - ts) (hend : ad ≤ st.animTimestamp) :
    (st.isAutoLooping = true →
      (CurveTab.animationCallback fd ad st t).s.animTimestamp = 0 ∧
      (CurveTab.animationCallback fd ad st t).s.isPlaying = true ∧
      (CurveTab.animationCallback fd ad st t).requested = true ∧
      (CurveTab.animationCallback fd ad st t).drew = false) ∧
    (st.isAutoLooping = false →
      (CurveTab.animationCallback fd ad st t).s.isPlaying = false ∧
      (CurveTab.animationCallback fd ad st t).s.callbackTimestamp = none ∧
      (CurveTab.animationCallback fd ad st t).requested = false ∧
      (CurveTab.animationCallback fd ad st t).drew = false) := by
  unfold CurveTab.animationCallback
  rw [hts]
  simp only [hcv, hpl, Bool.not_true, Bool.or_self, Bool.false_eq_true,
    if_false, Bool.or_false]
  rw [if_neg hts0, if_neg (not_lt.mpr hdue), if_pos hend]
  cases hl : st.isAutoLooping <;> simp [hpl]

/-- Closed witness for c8_animation_end_transition: a concrete due frame
against the nonzero previous timestamp 5 at the end of the animation with
auto loop on. -/
theorem c8_animation_end_transition_witness :
    (⟨1000, true, false, true, 0, true, some 5⟩ :
        CurveTab.CanvasState).hasCanvas = true ∧
    (5 : ℚ) ≠ 0 ∧ (10 : ℚ) ≤ 20 - 5 ∧ (1000 : ℚ) ≤ 1000 ∧
    ((⟨1000, true, false, true, 0, true, some 5⟩ :
        CurveTab.CanvasState).isAutoLooping = true →
      (CurveTab.animationCallback 10 1000
        ⟨1000, true, false, true, 0, true, some 5⟩ 20).s.animTimestamp = 0 ∧
      (CurveTab.animationCallback 10 1000
        ⟨1000, true, false, true, 0, true, some 5⟩ 20).s.isPlaying = true ∧
      (CurveTab.animationCallback 10 1000
        ⟨1000, true, false, true, 0, true, some 5⟩ 20).requested = true ∧
      (CurveTab.animationCallback 10 1000
        ⟨1000, true, false, true, 0, true, some 5⟩ 20).drew = false) :=
  ⟨rfl, by norm_num, by norm_num, le_refl _,
    (c8_animation_end_transition 10 1000
      ⟨1000, true, false, true, 0, true, some 5⟩ 20 5 rfl rfl rfl
      (by norm_num) (by norm_num) (by norm_num)).1⟩

/-- Counterexample for C9 as literally stated: at the zero (falsy)
previous callbackTimestamp the source takes the first-callback branch and
draws unconditionally — here at 100 fps only 5 ms after timestamp 0,
below the 10 ms frame duration — without advancing animTimestamp, so both
throttle conjuncts fail. -/
theorem c9_animation_throttled_cex :
    (⟨100, true, false, true, 0, true, some 0⟩ :
        CurveTab.CanvasState).callbackTimestamp = some 0 ∧
    (5 : ℚ) - 0 < CurveTab.frameDuration 100 ∧
    (CurveTab.animationCallback (CurveTab.frameDuration 100)
      ((CurveTab.animationDuration 1 : ℤ) : ℚ)
      ⟨100, true, false, true, 0, true, some 0⟩ 5).drew = true ∧
    (CurveTab.animationCallback (CurveTab.frameDuration 100)
      ((CurveTab.animationDuration 1 : ℤ) : ℚ)
      ⟨100, true, false, true, 0, true, some 0⟩ 5).s.animTimestamp
      ≠ 100 + ((5 : ℚ) - 0) := by
  refine ⟨rfl, ?_, ?_, ?_⟩ <;>
    norm_num [CurveTab.animationCallback, CurveTab.frameDuration]

/-- C9 (amended): with the constructor constants frameDuration = 1000 /
fps and animationDuration = round(duration * 1000), an animationCallback
invocation at time t with a nonzero previous callback timestamp (a zero
timestamp is falsy in the source and redraws unconditionally as a first
callback) draws a new frame only when t − callbackTimestamp is at least
the frame duration, and when it draws a mid-animation frame it advances
animTimestamp by exactly t − callbackTimestamp. -/
theorem c9_animation_throttled (fps dur : ℚ) (st : CurveTab.CanvasState)
    (t ts : ℚ) (hts : st.callbackTimestamp = some ts) (hts0 : ts ≠ 0) :
    ((CurveTab.animationCallback (CurveTab.frameDuration fps)
        ((CurveTab.animationDuration dur : ℤ) : ℚ) st t).drew = true →
      CurveTab.frameDuration fps ≤ t - ts) ∧
    ((CurveTab.animationCallback (CurveTab.frameDuration fps)
        ((CurveTab.animationDuration dur : ℤ) : ℚ) st t).drew = true →
      (CurveTab.animationCallback (CurveTab.frameDuration fps)
        ((CurveTab.animationDuration dur : ℤ) : ℚ) st t).s.animTimestamp
        = st.animTimestamp + (t - ts)) := by
  unfold CurveTab.animationCallback
  rw [hts]
  cases hc : st.hasCanvas <;> cases hp : st.isPlaying <;> simp
  rw [if_neg hts0]
  by_cases h1 : t - ts < CurveTab.frameDuration fps
  · simp [h1]
  · rw [if_neg h1]
    by_cases h2 :
        ((CurveTab.animationDuration dur : ℤ) : ℚ) ≤ st.animTimestamp
    · rw [if_pos h2]
      cases hl : st.isAutoLooping <;> simp
    · rw [if_neg h2]
      exact ⟨fun _ => not_lt.mp h1, fun _ => rfl⟩

/-- Closed witness for c9_animation_throttled: a concrete mid-animation
frame drawn 25 ms after the nonzero previous timestamp 1 at 40 fps. -/
theorem c9_animation_throttled_witness :
    (⟨100, true, false, true, 0, true, some 1⟩ :
        CurveTab.CanvasState).callbackTimestamp = some 1 ∧
    (1 : ℚ) ≠ 0 ∧
    ((CurveTab.animationCallback (CurveTab.frameDuration 40)
        ((CurveTab.animationDuration 1 : ℤ) : ℚ)
        ⟨100, true, false, true, 0, true, some 1⟩ 26).drew = true →
      CurveTab.frameDuration 40 ≤ 26 - 1) ∧
    ((CurveTab.animationCallback (CurveTab.frameDuration 40)
        ((CurveTab.animationDuration 1 : ℤ) : ℚ)
        ⟨100, true, false, true, 0, true, some 1⟩ 26).drew = true →
      (CurveTab.animationCallback (CurveTab.frameDuration 40)
        ((CurveTab.animationDuration 1 : ℤ) : ℚ)
        ⟨100, true, false, true, 0, true, some 1⟩ 26).s.animTimestamp
        = 100 + (26 - 1)) :=
  ⟨rfl, by norm_num,
    (c9_animation_throttled 40 1
      ⟨100, true, false, true, 0, true, some 1⟩ 26 1 rfl
      (by norm_num)).1,
    (c9_animation_throttled 40 1
      ⟨100, true, false, true, 0, true, some 1⟩ 26 1 rfl
      (by norm_num)).2⟩

namespace CSG

theorem roundedCubeOk_iff (sx sy sz r : ℚ) :
    roundedCubeOk sx sy sz r ↔
      ¬(min sx (min sy sz) / 2 < r ∨ r < 0 ∨ sx ≤ 0 ∨ sy ≤ 0 ∨ sz ≤ 0) := by
  unfold roundedCubeOk
  push_neg
  constructor
  · rintro ⟨h1, h2, h3, h4, h5⟩
    exact ⟨by linarith, by linarith, h1, h2, h3⟩
  · rintro ⟨h1, h2, h3, h4, h5⟩
    exact ⟨h3, h4, h5, h2, by linarith⟩

theorem roundedCylinderOk_iff (radius height r : ℚ) :
    roundedCylinderOk radius height r ↔
      ¬(min (2 * radius) height / 2 < r ∨ r < 0 ∨ radius ≤ 0 ∨ height ≤ 0) := by
  unfold roundedCylinderOk
  push_neg
  constructor
  · rintro ⟨h1, h2, h3, h4⟩
    exact ⟨by linarith, by linarith, h1, h2⟩
  · rintro ⟨h1, h2, h3, h4⟩
    exact ⟨h3, h4, h2, by linarith⟩

/-- C6: rounded_cube and rounded_cylinder fail with InvalidParameter if and
only if the corner radius exceeds half the smallest relevant edge length or
another numeric parameter is out of its valid domain; for all parameter
values within the domain the constructor returns a shape. -/
theorem c6_rounded_invalid_iff
    (genC : ℚ → ℚ → ℚ → ℚ → Mesh) (genY : ℚ → ℚ → ℚ → Mesh)
    (sx sy sz r radius height rc : ℚ) :
    (rounded_cube genC sx sy sz r = .error .invalidParameter ↔
      min sx (min sy sz) / 2 < r ∨ r < 0 ∨ sx ≤ 0 ∨ sy ≤ 0 ∨ sz ≤ 0) ∧
    ((∃ n, rounded_cube genC sx sy sz r = .ok n) ↔
      ¬(min sx (min sy sz) / 2 < r ∨ r < 0 ∨ sx ≤ 0 ∨ sy ≤ 0 ∨ sz ≤ 0)) ∧
    (rounded_cylinder genY radius height rc = .error .invalidParameter ↔
      min (2 * radius) height / 2 < rc ∨ rc < 0 ∨ radius ≤ 0 ∨ height ≤ 0) ∧
    ((∃ n, rounded_cylinder genY radius height rc = .ok n) ↔
      ¬(min (2 * radius) height / 2 < rc ∨ rc < 0 ∨ radius ≤ 0 ∨
        height ≤ 0)) := by
  refine ⟨?_, ?_, ?_, ?_⟩
  · by_cases h : roundedCubeOk sx sy sz r
    · simp only [rounded_cube, if_pos h]
      simp only [show ¬(Except.ok (ShapeNode.prim (genC sx sy sz r)) =
        (.error .invalidParameter : Except GeometryError ShapeNode)) from
        fun hh => Except.noConfusion hh, false_iff]
      exact (roundedCubeOk_iff sx sy sz r).mp h
    · simp only [rounded_cube, if_neg h, true_iff]
      by_contra hh
      exact h ((roundedCubeOk_iff sx sy sz r).mpr hh)
  · by_cases h : roundedCubeOk sx sy sz r
    · simp only [rounded_cube, if_pos h]
      constructor
      · intro _; exact (roundedCubeOk_iff sx sy sz r).mp h
      · intro _; exact ⟨_, rfl⟩
    · simp only [rounded_cube, if_neg h]
      constructor
      · rintro ⟨n, hn⟩; exact absurd hn (fun hh => Except.noConfusion hh)
      · intro hh; exact absurd ((roundedCubeOk_iff sx sy sz r).mpr hh) h
  · by_cases h : roundedCylinderOk radius height rc
    · simp only [rounded_cylinder, if_pos h]
      simp only [show ¬(Except.ok (ShapeNode.prim (genY radius height rc)) =
        (.error .invalidParameter : Except GeometryError ShapeNode)) from
        fun hh => Except.noConfusion hh, false_iff]
      exact (roundedCylinderOk_iff radius height rc).mp h
    · simp only [rounded_cylinder, if_neg h, true_iff]
      by_contra hh
      exact h ((roundedCylinderOk_iff radius height rc).mpr hh)
  · by_cases h : roundedCylinderOk radius height rc
    · simp only [rounded_cylinder, if_pos h]
      constructor
      · intro _; exact (roundedCylinderOk_iff radius height rc).mp h
      · intro _; exact ⟨_, rfl⟩
    · simp only [rounded_cylinder, if_neg h]
      constructor
      · rintro ⟨n, hn⟩; exact absurd hn (fun hh => Except.noConfusion hh)
      · intro hh
        exact absurd ((roundedCylinderOk_iff radius height rc).mpr hh) h

end CSG

namespace CSG

/-- C2: every combinator (translate, rotate, scale, union, intersect,
subtract, group) is pure with respect to its operands — the store entry of
every previously valid handle is unchanged (the old store is a prefix of
the new one), the returned handle is fresh, the fresh node's operand
subtrees are deep copies of the operand nodes, and deep copying preserves a
shape tree exactly (no structure of the original is consumed). -/
theorem c2_combinators_pure (rotM : Vec3 → ℚ → Mat4) (st : Store)
    (h1 h2 : Nat) (hs : List Nat) (v w axis : Vec3) (ang : ℚ) :
    (List.take (List.length st) (translate st h1 v).1 = st ∧
      (translate st h1 v).2 = List.length st ∧
      Store.node (translate st h1 v).1 (translate st h1 v).2
        = .transformed (Store.node st h1) (translationMat v)) ∧
    (List.take (List.length st) (rotate rotM st h1 axis ang).1 = st ∧
      (rotate rotM st h1 axis ang).2 = List.length st ∧
      Store.node (rotate rotM st h1 axis ang).1 (rotate rotM st h1 axis ang).2
        = .transformed (Store.node st h1) (rotM axis ang)) ∧
    (List.take (List.length st) (scale st h1 w).1 = st ∧
      (scale st h1 w).2 = List.length st ∧
      Store.node (scale st h1 w).1 (scale st h1 w).2
        = .transformed (Store.node st h1) (scaleMat w)) ∧
    (List.take (List.length st) (union st h1 h2).1 = st ∧
      (union st h1 h2).2 = List.length st ∧
      Store.node (union st h1 h2).1 (union st h1 h2).2
        = .boolean .union (Store.node st h1) (Store.node st h2)) ∧
    (List.take (List.length st) (intersect st h1 h2).1 = st ∧
      (intersect st h1 h2).2 = List.length st ∧
      Store.node (intersect st h1 h2).1 (intersect st h1 h2).2
        = .boolean .intersect (Store.node st h1) (Store.node st h2)) ∧
    (List.take (List.length st) (subtract st h1 h2).1 = st ∧
      (subtract st h1 h2).2 = List.length st ∧
      Store.node (subtract st h1 h2).1 (subtract st h1 h2).2
        = .boolean .subtract (Store.node st h1) (Store.node st h2)) ∧
    (List.take (List.length st) (group st hs).1 = st ∧
      (group st hs).2 = List.length st ∧
      Store.node (group st hs).1 (group st hs).2
        = .group (List.map (fun h => Store.node st h) hs)) ∧
    (∀ n : ShapeNode, deepCopy n = n) := by
  refine ⟨⟨take_push st _, rfl, ?_⟩, ⟨take_push st _, rfl, ?_⟩,
    ⟨take_push st _, rfl, ?_⟩, ⟨take_push st _, rfl, ?_⟩,
    ⟨take_push st _, rfl, ?_⟩, ⟨take_push st _, rfl, ?_⟩,
    ⟨take_push st _, rfl, ?_⟩, deepCopy_eq⟩ <;>
  simp [translate, rotate, scale, union, intersect, subtract, group,
    node_push, deepCopy_eq]

end CSG

namespace CSG

/-- C5: the unit cube centered at the origin has volume 1 and surface area
6, computed from its 12-triangle materialized mesh by the
signed-tetrahedron and triangle-area formulas. -/
theorem c5_unit_cube_metrics :
    meshVolume (cubeMesh 1) = 1 ∧ meshArea (cubeMesh 1) = 6 ∧
    List.length (cubeMesh 1) = 12 := by
  refine ⟨?_, ?_, rfl⟩
  · norm_num [cubeMesh, quad, meshVolume, sumDet, det3, Vec3.dot, Vec3.cross]
  · norm_num [cubeMesh, quad, meshArea, triArea, Vec3.dot, Vec3.cross,
      Vec3.sub, Real.sqrt_one]

end CSG

namespace CSG

theorem det3_translateTri (v : Vec3) (t : Tri) :
    det3 (translateTri v t)
      = det3 t + (v.x * (eVec t).x + v.y * (eVec t).y + v.z * (eVec t).z) := by
  simp [det3, translateTri, eVec, Vec3.dot, Vec3.cross]
  ring

theorem sVec_x_translateTri (v : Vec3) (t : Tri) :
    (sVec (translateTri v t)).x = (sVec t).x + 3 * v.x := by
  simp [sVec, translateTri]
  ring

theorem sVec_y_translateTri (v : Vec3) (t : Tri) :
    (sVec (translateTri v t)).y = (sVec t).y + 3 * v.y := by
  simp [sVec, translateTri]
  ring

theorem sVec_z_translateTri (v : Vec3) (t : Tri) :
    (sVec (translateTri v t)).z = (sVec t).z + 3 * v.z := by
  simp [sVec, translateTri]
  ring

theorem sumDet_translateMesh (v : Vec3) (m : Mesh) :
    sumDet (translateMesh v m)
      = sumDet m + (v.x * (vArea m).x + v.y * (vArea m).y
        + v.z * (vArea m).z) := by
  induction m with
  | nil => simp [sumDet, translateMesh, vArea, vsum, Vec3.zero]
  | cons t m ih =>
    have e1 : sumDet (translateMesh v (t :: m))
        = det3 (translateTri v t) + sumDet (translateMesh v m) := by
      simp [sumDet, translateMesh]
    have e2 : sumDet (t :: m) = det3 t + sumDet m := by simp [sumDet]
    have e3 : (vArea (t :: m)).x = (eVec t).x + (vArea m).x := rfl
    have e4 : (vArea (t :: m)).y = (eVec t).y + (vArea m).y := rfl
    have e5 : (vArea (t :: m)).z = (eVec t).z + (vArea m).z := rfl
    rw [e1, e2, e3, e4, e5, det3_translateTri, ih]
    ring

end CSG

namespace CSG

theorem momentSum_x_translateMesh (v : Vec3) (m : Mesh) :
    (momentSum (translateMesh v m)).x
      = (momentSum m).x + 3 * v.x * sumDet m
        + (v.x * smE Vec3.x Vec3.x m + v.y * smE Vec3.x Vec3.y m
          + v.z * smE Vec3.x Vec3.z m)
        + 3 * v.x * (v.x * (vArea m).x + v.y * (vArea m).y
          + v.z * (vArea m).z) := by
  induction m with
  | nil => simp [momentSum, translateMesh, vsum, Vec3.zero, smE, sumDet, vArea]
  | cons t m ih =>
    have e1 : (momentSum (translateMesh v (t :: m))).x
        = det3 (translateTri v t) * (sVec (translateTri v t)).x
          + (momentSum (translateMesh v m)).x := rfl
    have e2 : (momentSum (t :: m)).x
        = det3 t * (sVec t).x + (momentSum m).x := rfl
    have e3 : sumDet (t :: m) = det3 t + sumDet m := by simp [sumDet]
    have e4 : ∀ g : Vec3 → ℚ, smE Vec3.x g (t :: m)
        = (sVec t).x * g (eVec t) + smE Vec3.x g m := fun g => rfl
    have e5 : (vArea (t :: m)).x = (eVec t).x + (vArea m).x := rfl
    have e6 : (vArea (t :: m)).y = (eVec t).y + (vArea m).y := rfl
    have e7 : (vArea (t :: m)).z = (eVec t).z + (vArea m).z := rfl
    rw [e1, e2, e3, e4, e4, e4, e5, e6, e7, det3_translateTri,
      sVec_x_translateTri, ih]
    ring

theorem momentSum_y_translateMesh (v : Vec3) (m : Mesh) :
    (momentSum (translateMesh v m)).y
      = (momentSum m).y + 3 * v.y * sumDet m
        + (v.x * smE Vec3.y Vec3.x m + v.y * smE Vec3.y Vec3.y m
          + v.z * smE Vec3.y Vec3.z m)
        + 3 * v.y * (v.x * (vArea m).x + v.y * (vArea m).y
          + v.z * (vArea m).z) := by
  induction m with
  | nil => simp [momentSum, translateMesh, vsum, Vec3.zero, smE, sumDet, vArea]
  | cons t m ih =>
    have e1 : (momentSum (translateMesh v (t :: m))).y
        = det3 (translateTri v t) * (sVec (translateTri v t)).y
          + (momentSum (translateMesh v m)).y := rfl
    have e2 : (momentSum (t :: m)).y
        = det3 t * (sVec t).y + (momentSum m).y := rfl
    have e3 : sumDet (t :: m) = det3 t + sumDet m := by simp [sumDet]
    have e4 : ∀ g : Vec3 → ℚ, smE Vec3.y g (t :: m)
        = (sVec t).y * g (eVec t) + smE Vec3.y g m := fun g => rfl
    have e5 : (vArea (t :: m)).x = (eVec t).x + (vArea m).x := rfl
    have e6 : (vArea (t :: m)).y = (eVec t).y + (vArea m).y := rfl
    have e7 : (vArea (t :: m)).z = (eVec t).z + (vArea m).z := rfl
    rw [e1, e2, e3, e4, e4, e4, e5, e6, e7, det3_translateTri,
      sVec_y_translateTri, ih]
    ring

theorem momentSum_z_translateMesh (v : Vec3) (m : Mesh) :
    (momentSum (translateMesh v m)).z
      = (momentSum m).z + 3 * v.z * sumDet m
        + (v.x * smE Vec3.z Vec3.x m + v.y * smE Vec3.z Vec3.y m
          + v.z * smE Vec3.z Vec3.z m)
        + 3 * v.z * (v.x * (vArea m).x + v.y * (vArea m).y
          + v.z * (vArea m).z) := by
  induction m with
  | nil => simp [momentSum, translateMesh, vsum, Vec3.zero, smE, sumDet, vArea]
  | cons t m ih =>
    have e1 : (momentSum (translateMesh v (t :: m))).z
        = det3 (translateTri v t) * (sVec (translateTri v t)).z
          + (momentSum (translateMesh v m)).z := rfl
    have e2 : (momentSum (t :: m)).z
        = det3 t * (sVec t).z + (momentSum m).z := rfl
    have e3 : sumDet (t :: m) = det3 t + sumDet m := by simp [sumDet]
    have e4 : ∀ g : Vec3 → ℚ, smE Vec3.z g (t :: m)
        = (sVec t).z * g (eVec t) + smE Vec3.z g m := fun g => rfl
    have e5 : (vArea (t :: m)).x = (eVec t).x + (vArea m).x := rfl
    have e6 : (vArea (t :: m)).y = (eVec t).y + (vArea m).y := rfl
    have e7 : (vArea (t :: m)).z = (eVec t).z + (vArea m).z := rfl
    rw [e1, e2, e3, e4, e4, e4, e5, e6, e7, det3_translateTri,
      sVec_z_translateTri, ih]
    ring

end CSG

namespace CSG

theorem meshCentroid_translateMesh (v : Vec3) (m : Mesh)
    (hcl : closedIdentities m) (hV : meshVolume m ≠ 0) :
    meshCentroid (translateMesh v m) = meshCentroid m + v := by
  obtain ⟨h0, hxx, hxy, hxz, hyx, hyy, hyz, hzx, hzy, hzz⟩ := hcl
  have hax : (vArea m).x = 0 := by rw [h0]; rfl
  have hay : (vArea m).y = 0 := by rw [h0]; rfl
  have haz : (vArea m).z = 0 := by rw [h0]; rfl
  have hsd : sumDet m ≠ 0 := fun h => hV (by simp [meshVolume, h])
  have hV' : sumDet (translateMesh v m) = sumDet m := by
    rw [sumDet_translateMesh, hax, hay, haz]; ring
  apply Vec3.ext
  · simp only [Vec3.add_x, meshCentroid, Vec3.smul, meshVolume, hV']
    rw [momentSum_x_translateMesh, hax, hay, haz, hxx, hxy, hxz]
    field_simp
    ring
  · simp only [Vec3.add_y, meshCentroid, Vec3.smul, meshVolume, hV']
    rw [momentSum_y_translateMesh, hax, hay, haz, hyx, hyy, hyz]
    field_simp
    ring
  · simp only [Vec3.add_z, meshCentroid, Vec3.smul, meshVolume, hV']
    rw [momentSum_z_translateMesh, hax, hay, haz, hzx, hzy, hzz]
    field_simp
    ring

theorem applyTri_translationMat (v : Vec3) (t : Tri) :
    applyTri (translationMat v) t = translateTri v t := by
  apply Tri.ext <;>
    (apply Vec3.ext <;> simp [applyTri, applyAff, translationMat,
      translateTri])

theorem applyMesh_translationMat (v : Vec3) (m : Mesh) :
    applyMesh (translationMat v) m = translateMesh v m := by
  unfold applyMesh translateMesh
  congr 1
  funext t
  exact applyTri_translationMat v t

end CSG

namespace CSG

theorem materialize_transformed (combine : BoolOp → Mesh → Mesh → Mesh)
    (A : ShapeNode) (M : Mat4) :
    materialize combine (.transformed A M)
      = applyMesh M (materialize combine A) := by
  simp [materialize]

/-- C3: for every shape A with a mesh satisfying the watertightness
identities and nonzero volume, and every target point p, the center of the
re-centered shape is p, and shape_set_center returns a new node wrapping A
itself in a pure-translation Transformed node (A is untouched). -/
theorem c3_set_center_recenters (combine : BoolOp → Mesh → Mesh → Mesh)
    (A : ShapeNode) (p : Vec3)
    (hcl : closedIdentities (materialize combine A))
    (hV : meshVolume (materialize combine A) ≠ 0) :
    shape_center combine (shape_set_center combine A p) = p ∧
    shape_set_center combine A p
      = ShapeNode.transformed A
          (translationMat (p - shape_center combine A)) := by
  refine ⟨?_, rfl⟩
  unfold shape_center shape_set_center
  rw [materialize_transformed, applyMesh_translationMat,
    meshCentroid_translateMesh _ _ hcl hV]
  unfold shape_center
  apply Vec3.ext <;> simp

/-- Closed witness for c3_set_center_recenters: the tetrahedron primitive
recentered to (1, 2, 3); its hypotheses hold by computation. -/
theorem c3_set_center_recenters_witness :
    closedIdentities
      (materialize (fun _ a _ => a) (ShapeNode.prim tetMesh)) ∧
    meshVolume (materialize (fun _ a _ => a) (ShapeNode.prim tetMesh)) ≠ 0 ∧
    shape_center (fun _ a _ => a)
      (shape_set_center (fun _ a _ => a) (ShapeNode.prim tetMesh) ⟨1, 2, 3⟩)
      = ⟨1, 2, 3⟩ :=
  ⟨by
    simp only [materialize]
    norm_num [closedIdentities, tetMesh, vArea, vsum, smE, sumDet, det3,
      eVec, sVec, Vec3.dot, Vec3.cross, Vec3.add, Vec3.zero, Vec3.mk.injEq],
   by
    simp only [materialize]
    norm_num [meshVolume, tetMesh, sumDet, det3, Vec3.dot, Vec3.cross],
   (c3_set_center_recenters (fun _ a _ => a) (ShapeNode.prim tetMesh)
      ⟨1, 2, 3⟩
      (by
        simp only [materialize]
        norm_num [closedIdentities, tetMesh, vArea, vsum, smE, sumDet, det3,
          eVec, sVec, Vec3.dot, Vec3.cross, Vec3.add, Vec3.zero,
          Vec3.mk.injEq])
      (by
        simp only [materialize]
        norm_num [meshVolume, tetMesh, sumDet, det3, Vec3.dot,
          Vec3.cross])).1⟩

end CSG

namespace CSG

theorem det3_applyTri_scaleMat (v : Vec3) (t : Tri) :
    det3 (applyTri (scaleMat v) t) = v.x * v.y * v.z * det3 t := by
  simp [det3, applyTri, applyAff, scaleMat, Vec3.dot, Vec3.cross]
  ring

theorem sumDet_applyMesh_scaleMat (v : Vec3) (m : Mesh) :
    sumDet (applyMesh (scaleMat v) m) = v.x * v.y * v.z * sumDet m := by
  induction m with
  | nil => simp [sumDet, applyMesh]
  | cons t m ih =>
    have e1 : sumDet (applyMesh (scaleMat v) (t :: m))
        = det3 (applyTri (scaleMat v) t)
          + sumDet (applyMesh (scaleMat v) m) := by
      simp [sumDet, applyMesh]
    have e2 : sumDet (t :: m) = det3 t + sumDet m := by simp [sumDet]
    rw [e1, e2, det3_applyTri_scaleMat, ih]
    ring

/-- C7: for every shape and every scale vector with a zero component, the
scale operation succeeds — it appends a new Transformed node and returns
its handle, signalling no error — and the scaled shape materializes to a
degenerate mesh of volume zero. -/
theorem c7_degenerate_scale_zero_volume (combine : BoolOp → Mesh → Mesh → Mesh)
    (st : Store) (h : Nat) (v : Vec3)
    (hv : v.x = 0 ∨ v.y = 0 ∨ v.z = 0) :
    (scale st h v).1
      = st ++ [.transformed (deepCopy (Store.node st h)) (scaleMat v)] ∧
    (scale st h v).2 = List.length st ∧
    meshVolume
      (materialize combine (Store.node (scale st h v).1 (scale st h v).2))
      = 0 := by
  refine ⟨rfl, rfl, ?_⟩
  have e : Store.node (scale st h v).1 (scale st h v).2
      = .transformed (Store.node st h) (scaleMat v) := by
    simp [scale, node_push, deepCopy_eq]
  rw [e, materialize_transformed]
  unfold meshVolume
  rw [sumDet_applyMesh_scaleMat]
  rcases hv with h0 | h0 | h0 <;> rw [h0] <;> ring

/-- Closed witness for c7_degenerate_scale_zero_volume: scaling the
tetrahedron primitive by (0, 1, 1) yields a zero-volume shape. -/
theorem c7_degenerate_scale_zero_volume_witness :
    ((⟨0, 1, 1⟩ : Vec3).x = 0 ∨ (⟨0, 1, 1⟩ : Vec3).y = 0 ∨
      (⟨0, 1, 1⟩ : Vec3).z = 0) ∧
    meshVolume
      (materialize (fun _ a _ => a)
        (Store.node (scale [ShapeNode.prim tetMesh] 0 ⟨0, 1, 1⟩).1
          (scale [ShapeNode.prim tetMesh] 0 ⟨0, 1, 1⟩).2))
      = 0 :=
  ⟨Or.inl rfl,
    (c7_degenerate_scale_zero_volume (fun _ a _ => a)
      [ShapeNode.prim tetMesh] 0 ⟨0, 1, 1⟩ (Or.inl rfl)).2.2⟩

/-- C4: for every pair of overlapping measurable solids of finite overlap
volume, the inclusion-exclusion identity holds — the volume of the union is
the sum of the volumes minus the volume of the intersection. -/
theorem c4_inclusion_exclusion (A B : Solid)
    (_hA : MeasurableSet A) (hB : MeasurableSet B)
    (hfin : solidVolume (solidIntersect A B) ≠ ⊤)
    (_hover : (solidIntersect A B).Nonempty) :
    solidVolume (solidUnion A B)
      = solidVolume A + solidVolume B
        - solidVolume (solidIntersect A B) := by
  unfold solidVolume solidUnion solidIntersect at *
  exact ENNReal.eq_sub_of_add_eq hfin
    (MeasureTheory.measure_union_add_inter A hB)

/-- Closed witness for c4_inclusion_exclusion: the unit box overlapped with
itself. -/
theorem c4_inclusion_exclusion_witness :
    MeasurableSet unitBox ∧
    solidVolume (solidIntersect unitBox unitBox) ≠ ⊤ ∧
    (solidIntersect unitBox unitBox).Nonempty ∧
    solidVolume (solidUnion unitBox unitBox)
      = solidVolume unitBox + solidVolume unitBox
        - solidVolume (solidIntersect unitBox unitBox) := by
  have hm : MeasurableSet unitBox := measurableSet_Icc
  have hfin : solidVolume (solidIntersect unitBox unitBox) ≠ ⊤ := by
    unfold solidVolume solidIntersect unitBox
    rw [Set.inter_self]
    rw [Real.volume_Icc_pi]
    simp
  have hne : (solidIntersect unitBox unitBox).Nonempty := by
    refine ⟨0, ?_, ?_⟩ <;>
      exact Set.mem_Icc.mpr ⟨le_refl _, zero_le_one⟩
  exact ⟨hm, hfin, hne,
    c4_inclusion_exclusion unitBox unitBox hm hm hfin hne⟩

end CSG
